import Mathlib

/-!
Shallow embedding of the MCP23017 GPIO-expander driver (Rust crate
`mcp23017`), covering the register accessor (`src/registers.rs`), the
typed pin-mode state machine (`src/pin.rs`, `src/pin/input.rs`,
`src/pin/output.rs`, `src/pin/interrupt.rs`), the interrupt servicing
controller (`src/pin/interrupt.rs`) and the error conversion
(`src/error.rs`).

Machine bytes are modelled as `Nat` with explicit `% 256` / 8-bit masks
where the Rust code operates on `u8`.  The I2C transport is modelled as
a byte memory that echoes the last byte written to each address,
together with a schedule of transaction failures and a log of write
transactions.  Fallible operations return `Except` alongside the bus
state that results from the transactions actually performed (so partial
effects of failed operations remain visible, as on the real device).
-/

namespace Mcp23017

/-- The two 8-pin banks of the expander (`Bank` in `src/pin.rs`). -/
inductive Bank
  | A
  | B
deriving DecidableEq

/-- A pin identity: bank and bit number, as fixed by the sixteen
`PinId` marker types `A0`..`B7` in `src/pin.rs`. -/
structure PinId where
  bank : Bank
  number : Fin 8
deriving DecidableEq

/-- Bank A pin 0. -/
def A0 : PinId := ⟨Bank.A, 0⟩
/-- Bank A pin 1. -/
def A1 : PinId := ⟨Bank.A, 1⟩
/-- Bank A pin 7, reserved as output by the datasheet. -/
def A7 : PinId := ⟨Bank.A, 7⟩
/-- Bank B pin 0. -/
def B0 : PinId := ⟨Bank.B, 0⟩
/-- Bank B pin 1. -/
def B1 : PinId := ⟨Bank.B, 1⟩
/-- Bank B pin 7, reserved as output by the datasheet. -/
def B7 : PinId := ⟨Bank.B, 7⟩

/-- The `InputPinId` marker trait of `src/pin.rs`: it is implemented for
exactly the fourteen identities `A0`..`A6`, `B0`..`B6`, i.e. every pin
except `A7` and `B7`. -/
def InputPinId (p : PinId) : Prop := p.number.val ≠ 7

instance (p : PinId) : Decidable (InputPinId p) := by
  unfold InputPinId; infer_instance

/-- Input pin configurations (`Floating`, `PullUp` in `src/pin/input.rs`). -/
inductive InputConfiguration
  | Floating
  | PullUp
deriving DecidableEq

/-- The possible mode types of a pin handle: `Input<C>`, `Output` and
`Interrupt<C>` from `src/pin/input.rs`, `src/pin/output.rs` and
`src/pin/interrupt.rs`. -/
inductive PinMode
  | Input (c : InputConfiguration)
  | Output
  | Interrupt (c : InputConfiguration)
deriving DecidableEq

/-- An interrupt trigger condition (`Sense` in `src/pin/interrupt.rs`). -/
inductive Sense
  | High
  | Low
  | Edge
deriving DecidableEq

/-- Model of the I2C transport used by the driver: `mem` echoes the last
byte written to each register address, `failures` is a schedule telling
whether the next bus transactions fail, and `log` records every write
transaction (address, byte) in order. -/
structure Bus where
  mem : Nat → Nat
  failures : List Bool
  log : List (Nat × Nat)

/-- Pop the next entry of the failure schedule (an exhausted schedule
means transactions succeed). -/
def Bus.step (b : Bus) : Bool × Bus :=
  match b.failures with
  | [] => (false, b)
  | f :: rest => (f, { b with failures := rest })

/-- One `write_read` transaction: address a register, read back its
byte.  Returns the byte last written at that address (echo model). -/
def Bus.write_read (b : Bus) (addr : Nat) : Bus × Except Unit Nat :=
  let s := b.step
  if s.1 then (s.2, Except.error ())
  else (s.2, Except.ok (s.2.mem addr % 256))

/-- One `write` transaction: write a byte to a register address. -/
def Bus.write (b : Bus) (addr byte : Nat) : Bus × Except Unit Unit :=
  let s := b.step
  if s.1 then (s.2, Except.error ())
  else ({ s.2 with
            mem := fun a => if a = addr then byte else s.2.mem a,
            log := s.2.log ++ [(addr, byte)] },
        Except.ok ())

namespace Registers

/-- I/O Direction Register base address (`Registers::IODIR`). -/
def IODIR : Nat := 0x00
/-- Input Polarity Register base address (`Registers::IOPOL`). -/
def IOPOL : Nat := 0x02
/-- Interrupt-on-change Control Register base address (`Registers::GPINTEN`). -/
def GPINTEN : Nat := 0x04
/-- Default Compare Register base address (`Registers::DEFVAL`). -/
def DEFVAL : Nat := 0x06
/-- Interrupt Control Register base address (`Registers::INTCON`). -/
def INTCON : Nat := 0x08
/-- Configuration Register base address (`Registers::IOCON`). -/
def IOCON : Nat := 0x0A
/-- Pull-up Resistor Configuration Register base address (`Registers::GPPU`). -/
def GPPU : Nat := 0x0C
/-- Interrupt Flag Register base address (`Registers::INTF`). -/
def INTF : Nat := 0x0E
/-- Interrupt Captured Register base address (`Registers::INTCAP`). -/
def INTCAP : Nat := 0x10
/-- Port Register base address (`Registers::GPIO`). -/
def GPIO : Nat := 0x12
/-- Output Latch Register base address (`Registers::OLAT`). -/
def OLAT : Nat := 0x14

/-- `Registers::address`: shift a register base address to the pin's
bank (`base + 0` for bank A, `base + 1` for bank B). -/
def address (p : PinId) (base : Nat) : Nat :=
  base + match p.bank with
    | Bank.A => 0
    | Bank.B => 1

/-- `Registers::get`: read the pin's bit in a register via one
`write_read` transaction. -/
def get (p : PinId) (register : Nat) (b : Bus) : Bus × Except Unit Bool :=
  let r := b.write_read (address p register)
  match r.2 with
  | Except.error e => (r.1, Except.error e)
  | Except.ok read => (r.1, Except.ok (read &&& (1 <<< p.number.val) != 0))

/-- `Registers::set`: read the current byte of a register, force the
pin's bit to `bit`, and write the byte back (two transactions). -/
def set (p : PinId) (register : Nat) (bit : Bool) (b : Bus) : Bus × Except Unit Unit :=
  let r := b.write_read (address p register)
  match r.2 with
  | Except.error e => (r.1, Except.error e)
  | Except.ok read =>
      r.1.write (address p register)
        (if bit then read ||| (1 <<< p.number.val)
         else read &&& ((1 <<< p.number.val) ^^^ 255))

end Registers

/-- Sequence a register write with a continuation, propagating a bus
error exactly as the `?` operator does in the Rust transition methods. -/
def bindSet (r : Bus × Except Unit Unit) (k : Bus → Bus × Except Unit PinMode) :
    Bus × Except Unit PinMode :=
  match r with
  | (b, Except.error e) => (b, Except.error e)
  | (b, Except.ok _) => k b

/-- `Pin<Input<PullUp>>::into_floating_input` (`src/pin/input.rs`):
one register write, `GPPU=0`. -/
def into_floating_input_of_pull_up (p : PinId) (b : Bus) : Bus × Except Unit PinMode :=
  bindSet (Registers.set p Registers.GPPU false b) fun b1 =>
    (b1, Except.ok (PinMode.Input InputConfiguration.Floating))

/-- `Pin<Input<Floating>>::into_pull_up_input` (`src/pin/input.rs`):
one register write, `GPPU=1`. -/
def into_pull_up_input_of_floating (p : PinId) (b : Bus) : Bus × Except Unit PinMode :=
  bindSet (Registers.set p Registers.GPPU true b) fun b1 =>
    (b1, Except.ok (PinMode.Input InputConfiguration.PullUp))

/-- `Pin<Input<C>>::into_push_pull_output` (`src/pin/output.rs`):
one register write, `IODIR=0`. -/
def into_push_pull_output (p : PinId) (_c : InputConfiguration) (b : Bus) :
    Bus × Except Unit PinMode :=
  bindSet (Registers.set p Registers.IODIR false b) fun b1 =>
    (b1, Except.ok PinMode.Output)

/-- `Pin<Output>::into_floating_input` (`src/pin/input.rs`, only
available for `InputPinId` identities): writes `GPPU=0` then `IODIR=1`. -/
def into_floating_input_of_output (p : PinId) (b : Bus) : Bus × Except Unit PinMode :=
  bindSet (Registers.set p Registers.GPPU false b) fun b1 =>
    bindSet (Registers.set p Registers.IODIR true b1) fun b2 =>
      (b2, Except.ok (PinMode.Input InputConfiguration.Floating))

/-- `Pin<Output>::into_pull_up_input` (`src/pin/input.rs`, only
available for `InputPinId` identities): writes `GPPU=1` then `IODIR=1`. -/
def into_pull_up_input_of_output (p : PinId) (b : Bus) : Bus × Except Unit PinMode :=
  bindSet (Registers.set p Registers.GPPU true b) fun b1 =>
    bindSet (Registers.set p Registers.IODIR true b1) fun b2 =>
      (b2, Except.ok (PinMode.Input InputConfiguration.PullUp))

/-- `Pin<Input<C>>::enable_interrupt` (`src/pin/interrupt.rs`): per
sense, `INTCON`/`DEFVAL` writes, then `GPINTEN=1`; returns an
`Interrupt<C>` handle with the same input configuration `C`. -/
def enable_interrupt (p : PinId) (c : InputConfiguration) (sense : Sense) (b : Bus) :
    Bus × Except Unit PinMode :=
  match sense with
  | Sense.High =>
      bindSet (Registers.set p Registers.INTCON true b) fun b1 =>
        bindSet (Registers.set p Registers.DEFVAL false b1) fun b2 =>
          bindSet (Registers.set p Registers.GPINTEN true b2) fun b3 =>
            (b3, Except.ok (PinMode.Interrupt c))
  | Sense.Low =>
      bindSet (Registers.set p Registers.INTCON true b) fun b1 =>
        bindSet (Registers.set p Registers.DEFVAL true b1) fun b2 =>
          bindSet (Registers.set p Registers.GPINTEN true b2) fun b3 =>
            (b3, Except.ok (PinMode.Interrupt c))
  | Sense.Edge =>
      bindSet (Registers.set p Registers.INTCON false b) fun b1 =>
        bindSet (Registers.set p Registers.GPINTEN true b1) fun b2 =>
          (b2, Except.ok (PinMode.Interrupt c))

/-- `Pin<Interrupt<C>>::disable_interrupt` (`src/pin/interrupt.rs`):
one register write, `GPINTEN=0`; returns an `Input<C>` handle with the
same input configuration `C`. -/
def disable_interrupt (p : PinId) (c : InputConfiguration) (b : Bus) :
    Bus × Except Unit PinMode :=
  bindSet (Registers.set p Registers.GPINTEN false b) fun b1 =>
    (b1, Except.ok (PinMode.Input c))

/-- The mode transitions offered by the typed pin API, abstracted over
bus effects: one constructor per consuming transition method, with the
`InputPinId` trait bound appearing exactly where the Rust impl demands
it (`impl<I: InputPinId, ...> Pin<I, Output, ...>` in
`src/pin/input.rs`). -/
inductive Step (p : PinId) : PinMode → PinMode → Prop
  | pull_up_to_floating :
      Step p (PinMode.Input InputConfiguration.PullUp) (PinMode.Input InputConfiguration.Floating)
  | floating_to_pull_up :
      Step p (PinMode.Input InputConfiguration.Floating) (PinMode.Input InputConfiguration.PullUp)
  | input_to_output (c : InputConfiguration) :
      Step p (PinMode.Input c) PinMode.Output
  | output_to_floating (h : InputPinId p) :
      Step p PinMode.Output (PinMode.Input InputConfiguration.Floating)
  | output_to_pull_up (h : InputPinId p) :
      Step p PinMode.Output (PinMode.Input InputConfiguration.PullUp)
  | input_to_interrupt (c : InputConfiguration) :
      Step p (PinMode.Input c) (PinMode.Interrupt c)
  | interrupt_to_input (c : InputConfiguration) :
      Step p (PinMode.Interrupt c) (PinMode.Input c)

/-- The mode each pin has right after `Mcp23017::split` (`src/lib.rs`):
`A7`/`B7` (number 7) are `Output`, all others `Input<Floating>`. -/
def initialMode (p : PinId) : PinMode :=
  if p.number.val = 7 then PinMode.Output else PinMode.Input InputConfiguration.Floating

/-- A mode is reachable for a pin when some sequence of transition
operations starting from the pin's post-`split` mode produces it. -/
def Reachable (p : PinId) (m : PinMode) : Prop :=
  Relation.ReflTransGen (Step p) (initialMode p) m

/-- The error type of the shared-bus guard
(`embedded_hal_bus::i2c::AtomicError`): bus contention (`Busy`) or an
underlying transport error. -/
inductive AtomicError (E : Type)
  | Busy
  | Other (e : E)
deriving DecidableEq

/-- The driver's error type (`Error` in `src/error.rs`): its only
variant wraps a transport error. -/
inductive Error (E : Type)
  | Communication (e : E)
deriving DecidableEq

/-- The `From<AtomicError<S::Error>> for Error<S>` conversion in
`src/error.rs`.  The `Busy` branch is `unreachable!()` in the source —
the program aborts rather than producing a typed value — modelled here
as `none`. -/
def Error.fromAtomicError {E : Type} : AtomicError E → Option (Error E)
  | AtomicError.Busy => none
  | AtomicError.Other e => some (Error.Communication e)

/-- The interrupt servicing cache (`InterruptController` in
`src/pin/interrupt.rs`): per-bank flag and capture bytes.  The first
component of each pair is bank A, the second bank B. -/
structure InterruptController where
  interrupt_flag : Nat × Nat
  interrupt_capture : Nat × Nat
deriving DecidableEq

/-- The bank-A/bank-B projection of the flag pair, as selected by the
`match bank` expressions in `InterruptController::interrupt`. -/
def flagOf (st : InterruptController) : Bank → Nat
  | Bank.A => st.interrupt_flag.1
  | Bank.B => st.interrupt_flag.2

/-- The bank-A/bank-B projection of the capture pair. -/
def captureOf (st : InterruptController) : Bank → Nat
  | Bank.A => st.interrupt_capture.1
  | Bank.B => st.interrupt_capture.2

/-- `InterruptController::new`: all bitmaps start at zero. -/
def InterruptController.new : InterruptController :=
  ⟨(0, 0), (0, 0)⟩

/-- `InterruptController::interrupt` (`src/pin/interrupt.rs`, the
`service` operation), with the two bus reads supplied as parameters:
first the INTF read, whose byte is OR-merged into the bank's flag via
`fetch_or`; then the INTCAP read, whose byte is merged into the bank's
capture as `(capture & !intf) + (intcap & intf)` — arithmetic `u8`
addition of the two masks, modelled as addition mod 256.  A failed read
returns the error alongside the state reached so far (the flag update
has already happened when the INTCAP read fails). -/
def InterruptController.interrupt {E : Type} (st : InterruptController) (bank : Bank)
    (intfRead : Except (AtomicError E) Nat) (intcapRead : Except (AtomicError E) Nat) :
    InterruptController × Option (AtomicError E) :=
  match intfRead with
  | Except.error e => (st, some e)
  | Except.ok intf =>
    let st1 : InterruptController :=
      match bank with
      | Bank.A => { st with interrupt_flag := (st.interrupt_flag.1 ||| intf, st.interrupt_flag.2) }
      | Bank.B => { st with interrupt_flag := (st.interrupt_flag.1, st.interrupt_flag.2 ||| intf) }
    match intcapRead with
    | Except.error e => (st1, some e)
    | Except.ok intcap =>
      let masked_intcap_read := intcap &&& intf
      match bank with
      | Bank.A =>
        let intcapOld := st1.interrupt_capture.1
        let masked_intcap := intcapOld &&& (255 ^^^ intf)
        let modified := (masked_intcap + masked_intcap_read) % 256
        ({ st1 with interrupt_capture := (modified, st1.interrupt_capture.2) }, none)
      | Bank.B =>
        let intcapOld := st1.interrupt_capture.2
        let masked_intcap := intcapOld &&& (255 ^^^ intf)
        let modified := (masked_intcap + masked_intcap_read) % 256
        ({ st1 with interrupt_capture := (st1.interrupt_capture.1, modified) }, none)

/-- `InterruptController::triggered` (`src/pin/interrupt.rs`): clear
the pin's flag bit (`fetch_and` with the complemented mask, returning
the prior byte); if the prior flag bit was set, also clear the pin's
capture bit and return its prior value, otherwise return `None`. -/
def InterruptController.triggered (st : InterruptController) (p : PinId) :
    Option Bool × InterruptController :=
  let mask := 1 <<< p.number.val
  let read :=
    match p.bank with
    | Bank.A => st.interrupt_flag.1
    | Bank.B => st.interrupt_flag.2
  let st1 : InterruptController :=
    match p.bank with
    | Bank.A => { st with interrupt_flag := (st.interrupt_flag.1 &&& (255 ^^^ mask), st.interrupt_flag.2) }
    | Bank.B => { st with interrupt_flag := (st.interrupt_flag.1, st.interrupt_flag.2 &&& (255 ^^^ mask)) }
  if read &&& mask != 0 then
    let readc :=
      match p.bank with
      | Bank.A => st1.interrupt_capture.1
      | Bank.B => st1.interrupt_capture.2
    let st2 : InterruptController :=
      match p.bank with
      | Bank.A => { st1 with interrupt_capture := (st1.interrupt_capture.1 &&& (255 ^^^ mask), st1.interrupt_capture.2) }
      | Bank.B => { st1 with interrupt_capture := (st1.interrupt_capture.1, st1.interrupt_capture.2 &&& (255 ^^^ mask)) }
    (some (readc &&& mask != 0), st2)
  else
    (none, st1)

/-- A controller state is well formed when all four cached bitmaps are
bytes, as guaranteed by the `AtomicU8` fields of the Rust struct. -/
def WellFormed (st : InterruptController) : Prop :=
  st.interrupt_flag.1 < 256 ∧ st.interrupt_flag.2 < 256 ∧
    st.interrupt_capture.1 < 256 ∧ st.interrupt_capture.2 < 256

instance (st : InterruptController) : Decidable (WellFormed st) := by
  unfold WellFormed; infer_instance

theorem add_of_and_eq_zero (x : Nat) : ∀ y : Nat, x &&& y = 0 → x + y = x ||| y := by
  induction x using Nat.binaryRec with
  | z =>
    intro y _
    simp
  | f b n ih =>
    intro y h
    induction y using Nat.binaryRec with
    | z => simp
    | f c m _ =>
      rw [Nat.land_bit] at h
      rw [Nat.lor_bit, Nat.bit_val, Nat.bit_val, Nat.bit_val]
      rw [Nat.bit_val] at h
      have h0 : n &&& m = 0 := by
        cases b <;> cases c <;> simp at h <;> omega
      have hbc : Bool.toNat b + Bool.toNat c = Bool.toNat (b || c) := by
        cases b <;> cases c <;> simp at h ⊢ <;> omega
      have hnm := ih m h0
      omega

theorem testBit_255 (k : Nat) (hk : k < 8) : Nat.testBit 255 k = true := by
  have h : ∀ j, j < 8 → Nat.testBit 255 j = true := by decide
  exact h k hk

theorem merge_masks_disjoint (a b i : Nat) (hi : i < 256) :
    (a &&& (255 ^^^ i)) &&& (b &&& i) = 0 := by
  apply Nat.eq_of_testBit_eq
  intro k
  simp only [Nat.testBit_and, Nat.testBit_xor, Nat.zero_testBit]
  by_cases hk : k < 8
  · rcases hik : i.testBit k
    · simp [hik]
    · simp [testBit_255 k hk, hik]
  · have hik : i.testBit k = false := by
      have h8 : (256 : Nat) ≤ 2 ^ k :=
        calc (256 : Nat) = 2 ^ 8 := by norm_num
          _ ≤ 2 ^ k := Nat.pow_le_pow_right (by omega) (by omega)
      exact Nat.testBit_lt_two_pow (lt_of_lt_of_le hi h8)
    simp [hik]

theorem merge_or_lt (a b i : Nat) (ha : a < 256) (hb : b < 256) :
    (a &&& (255 ^^^ i)) ||| (b &&& i) < 256 := by
  have h1 : a &&& (255 ^^^ i) < 2 ^ 8 := lt_of_le_of_lt Nat.and_le_left (by simpa using ha)
  have h2 : b &&& i < 2 ^ 8 := lt_of_le_of_lt Nat.and_le_left (by simpa using hb)
  simpa using Nat.or_lt_two_pow h1 h2

theorem merge_add_eq_or (cap intf intcap : Nat) (hi : intf < 256) :
    (cap &&& (255 ^^^ intf)) + (intcap &&& intf)
      = (cap &&& (255 ^^^ intf)) ||| (intcap &&& intf) :=
  add_of_and_eq_zero _ _ (merge_masks_disjoint cap intcap intf hi)

theorem and_not_pow_and_pow (x i j : Nat) (hij : i ≠ j) (hi : i < 8) (hj : j < 8) :
    (x &&& (255 ^^^ (1 <<< i))) &&& (1 <<< j) = x &&& (1 <<< j) := by
  apply Nat.eq_of_testBit_eq
  intro k
  rw [Nat.one_shiftLeft, Nat.one_shiftLeft]
  simp only [Nat.testBit_and, Nat.testBit_xor]
  by_cases hkj : k = j
  · subst hkj
    have h2i : (2 ^ i).testBit k = false := Nat.testBit_two_pow_of_ne (by omega)
    simp [testBit_255 k hj, h2i]
  · have h2j : (2 ^ j).testBit k = false :=
      Nat.testBit_two_pow_of_ne (fun hh => hkj hh.symm)
    simp [h2j]

theorem clear_bit_preserve (x i k : Nat) (hik : k ≠ i) (hi : i < 8) (hk : k < 8) :
    (x &&& (255 ^^^ (1 <<< i))).testBit k = x.testBit k := by
  rw [Nat.one_shiftLeft]
  simp only [Nat.testBit_and, Nat.testBit_xor]
  have h2i : (2 ^ i).testBit k = false := Nat.testBit_two_pow_of_ne (by omega)
  simp [testBit_255 k hk, h2i]

theorem clear_bit_self (x i : Nat) (hi : i < 8) :
    (x &&& (255 ^^^ (1 <<< i))).testBit i = false := by
  rw [Nat.one_shiftLeft]
  simp only [Nat.testBit_and, Nat.testBit_xor]
  simp [testBit_255 i hi, Nat.testBit_two_pow_self]

theorem and_pow_ne_zero_iff (x k : Nat) :
    (x &&& (1 <<< k) != 0) = x.testBit k := by
  rw [Nat.one_shiftLeft, Nat.and_two_pow]
  rcases h : x.testBit k <;> simp [h]

/-- C10: for every pin identity and every register base address in the
fixed map (IODIR=0x00, GPINTEN=0x04, DEFVAL=0x06, INTCON=0x08,
GPPU=0x0C, INTF=0x0E, INTCAP=0x10, GPIO=0x12), the effective bus
address used by the pin's register accessor equals base + 0 for bank A
and base + 1 for bank B. -/
theorem claim_C10_effective_address (p : PinId) :
    Registers.address p Registers.IODIR = 0x00 + (if p.bank = Bank.A then 0 else 1) ∧
    Registers.address p Registers.GPINTEN = 0x04 + (if p.bank = Bank.A then 0 else 1) ∧
    Registers.address p Registers.DEFVAL = 0x06 + (if p.bank = Bank.A then 0 else 1) ∧
    Registers.address p Registers.INTCON = 0x08 + (if p.bank = Bank.A then 0 else 1) ∧
    Registers.address p Registers.GPPU = 0x0C + (if p.bank = Bank.A then 0 else 1) ∧
    Registers.address p Registers.INTF = 0x0E + (if p.bank = Bank.A then 0 else 1) ∧
    Registers.address p Registers.INTCAP = 0x10 + (if p.bank = Bank.A then 0 else 1) ∧
    Registers.address p Registers.GPIO = 0x12 + (if p.bank = Bank.A then 0 else 1) := by
  obtain ⟨bank, num⟩ := p
  cases bank <;>
    simp [Registers.address, Registers.IODIR, Registers.GPINTEN, Registers.DEFVAL,
      Registers.INTCON, Registers.GPPU, Registers.INTF, Registers.INTCAP, Registers.GPIO]

/-- C9: the driver error type has exactly one variant, `Communication`
wrapping the transport error; the `AtomicError` conversion maps `Other`
to `Communication` and treats `Busy` as unreachable (no typed value is
produced, modelled as `none`); and `InterruptController::interrupt`
surfaces bus contention directly as the `Busy` variant of its own error
type, distinct from an ordinary transport error. -/
theorem claim_C9_error_kinds :
    ∀ (E : Type) (e : E) (err : Error E) (st : InterruptController) (bank : Bank)
      (r : Except (AtomicError E) Nat) (a : AtomicError E),
      Error.fromAtomicError (AtomicError.Other e) = some (Error.Communication e) ∧
      Error.fromAtomicError (AtomicError.Busy : AtomicError E) = none ∧
      (∃ x : E, err = Error.Communication x) ∧
      ((Error.fromAtomicError a).isSome ↔ ∃ x, a = AtomicError.Other x) ∧
      st.interrupt bank (Except.error AtomicError.Busy) r
        = (st, some (AtomicError.Busy : AtomicError E)) ∧
      (AtomicError.Busy : AtomicError E) ≠ AtomicError.Other e := by
  intro E e err st bank r a
  refine ⟨rfl, rfl, ?_, ?_, rfl, by intro h; cases h⟩
  · cases err with
    | Communication x => exact ⟨x, rfl⟩
  · cases a with
    | Busy => simp [Error.fromAtomicError]
    | Other x => simp [Error.fromAtomicError]

/-- Witness for C9 at a concrete transport error type and value. -/
theorem claim_C9_witness :
    Error.fromAtomicError (AtomicError.Other (0 : Nat)) = some (Error.Communication 0) :=
  (claim_C9_error_kinds Nat 0 (Error.Communication 0) InterruptController.new Bank.A
    (Except.ok 0) AtomicError.Busy).1

/-- C2: starting from `split`, the reserved identities (number 7, i.e.
A7 and B7) are never in an Input or Interrupt configuration: `split`
produces them as `Output`, every Output-to-Input transition requires
the `InputPinId` bound (held only by the fourteen non-reserved
identities), and an Interrupt mode is only ever produced from an Input
mode, so the only reachable mode for a reserved pin is `Output`. -/
theorem claim_C2_reserved_pins_only_output (p : PinId) (m m' : PinMode) (c : InputConfiguration) :
    (p.number.val = 7 → initialMode p = PinMode.Output) ∧
    (p.number.val = 7 → Reachable p m → m = PinMode.Output) ∧
    (Step p m' (PinMode.Interrupt c) → m' = PinMode.Input c) ∧
    (p.number.val = 7 → Step p PinMode.Output m' → False) := by
  have hout : p.number.val = 7 → ∀ m₂, Step p PinMode.Output m₂ → False := by
    intro h7 m₂ hs
    cases hs with
    | output_to_floating h => exact h h7
    | output_to_pull_up h => exact h h7
  refine ⟨?_, ?_, ?_, fun h7 => hout h7 m'⟩
  · intro h7
    simp [initialMode, h7]
  · intro h7 hr
    induction hr with
    | refl => simp [initialMode, h7]
    | tail _ hs ih =>
        rw [ih] at hs
        exact absurd hs (fun hs => hout h7 _ hs)
  · intro hs
    cases hs
    rfl

/-- Witness for C2 at the concrete reserved pin A7. -/
theorem claim_C2_witness :
    initialMode A7 = PinMode.Output ∧ PinMode.Output = PinMode.Output :=
  ⟨(claim_C2_reserved_pins_only_output A7 PinMode.Output PinMode.Output
      InputConfiguration.Floating).1 rfl,
   (claim_C2_reserved_pins_only_output A7 PinMode.Output PinMode.Output
      InputConfiguration.Floating).2.1 rfl Relation.ReflTransGen.refl⟩

/-- C1: for every bank and every pair of bytes read by a successful
service call, `interrupt(bank)` updates the stored capture byte to
exactly `(old & !intf) | (intcap & intf)`; the arithmetic `u8` addition
of the two masks used in the implementation equals this bitwise OR
because the masks are disjoint, and the addition cannot overflow. -/
theorem claim_C1_capture_merge (st : InterruptController) (bank : Bank) (intf intcap : Nat)
    (hcap : captureOf st bank < 256) (hintf : intf < 256) (hintcap : intcap < 256) :
    (st.interrupt (E := Unit) bank (Except.ok intf) (Except.ok intcap)).2 = none ∧
    captureOf (st.interrupt (E := Unit) bank (Except.ok intf) (Except.ok intcap)).1 bank
      = (captureOf st bank &&& (255 ^^^ intf)) ||| (intcap &&& intf) ∧
    (captureOf st bank &&& (255 ^^^ intf)) &&& (intcap &&& intf) = 0 ∧
    (captureOf st bank &&& (255 ^^^ intf)) + (intcap &&& intf)
      = (captureOf st bank &&& (255 ^^^ intf)) ||| (intcap &&& intf) ∧
    (captureOf st bank &&& (255 ^^^ intf)) + (intcap &&& intf) < 256 := by
  obtain ⟨⟨fa, fb⟩, ⟨ca, cb⟩⟩ := st
  cases bank
  · simp only [captureOf] at hcap ⊢
    have hadd := merge_add_eq_or ca intf intcap hintf
    have hlt : (ca &&& (255 ^^^ intf)) ||| (intcap &&& intf) < 256 :=
      merge_or_lt ca intcap intf hcap hintcap
    refine ⟨rfl, ?_, merge_masks_disjoint ca intcap intf hintf, hadd,
      by rw [hadd]; exact hlt⟩
    simp only [InterruptController.interrupt, captureOf]
    rw [hadd, Nat.mod_eq_of_lt hlt]
  · simp only [captureOf] at hcap ⊢
    have hadd := merge_add_eq_or cb intf intcap hintf
    have hlt : (cb &&& (255 ^^^ intf)) ||| (intcap &&& intf) < 256 :=
      merge_or_lt cb intcap intf hcap hintcap
    refine ⟨rfl, ?_, merge_masks_disjoint cb intcap intf hintf, hadd,
      by rw [hadd]; exact hlt⟩
    simp only [InterruptController.interrupt, captureOf]
    rw [hadd, Nat.mod_eq_of_lt hlt]

/-- Witness for C1 at the concrete input: fresh controller, bank A,
INTF byte 1, INTCAP byte 1. -/
theorem claim_C1_witness :
    captureOf InterruptController.new Bank.A < 256 ∧ (1 : Nat) < 256 ∧
    captureOf (InterruptController.new.interrupt (E := Unit) Bank.A
        (Except.ok 1) (Except.ok 1)).1 Bank.A
      = (captureOf InterruptController.new Bank.A &&& (255 ^^^ 1)) ||| (1 &&& 1) :=
  ⟨by decide, by decide,
    (claim_C1_capture_merge InterruptController.new Bank.A 1 1
      (by decide) (by decide) (by decide)).2.1⟩

theorem byte_testBit_high (x k : Nat) (hx : x < 256) (hk : 8 ≤ k) : x.testBit k = false := by
  have h8 : (256 : Nat) ≤ 2 ^ k :=
    calc (256 : Nat) = 2 ^ 8 := by norm_num
      _ ≤ 2 ^ k := Nat.pow_le_pow_right (by omega) hk
  exact Nat.testBit_lt_two_pow (lt_of_lt_of_le hx h8)

theorem reclear_mask (cap intcap intf : Nat) (hintf : intf < 256) :
    ((cap &&& (255 ^^^ intf)) ||| (intcap &&& intf)) &&& (255 ^^^ intf)
      = cap &&& (255 ^^^ intf) := by
  apply Nat.eq_of_testBit_eq
  intro k
  simp only [Nat.testBit_and, Nat.testBit_or, Nat.testBit_xor]
  by_cases hk : k < 8
  · rcases hik : intf.testBit k <;> simp [testBit_255 k hk, hik]
  · have hik : intf.testBit k = false := byte_testBit_high intf k hintf (by omega)
    have h255 : Nat.testBit 255 k = false := byte_testBit_high 255 k (by omega) (by omega)
    simp [hik, h255]

/-- C4: a successful `interrupt(bank)` sets `flag[bank]` to
`old | intf` and never clears a set flag bit; two successive service
calls reading `f1` then `f2` leave `flag = old | f1 | f2`; and
repeating a service call with the same INTF and INTCAP bytes leaves
the whole cached state unchanged. -/
theorem claim_C4_flag_additive (st : InterruptController) (bank : Bank)
    (intf intcap f1 c1 f2 c2 k : Nat)
    (hWF : WellFormed st) (hintf : intf < 256) (hintcap : intcap < 256) :
    flagOf (st.interrupt (E := Unit) bank (Except.ok intf) (Except.ok intcap)).1 bank
      = flagOf st bank ||| intf ∧
    (Nat.testBit (flagOf st bank) k = true →
      Nat.testBit
        (flagOf (st.interrupt (E := Unit) bank (Except.ok intf) (Except.ok intcap)).1 bank)
        k = true) ∧
    flagOf ((st.interrupt (E := Unit) bank (Except.ok f1) (Except.ok c1)).1.interrupt
        (E := Unit) bank (Except.ok f2) (Except.ok c2)).1 bank
      = flagOf st bank ||| f1 ||| f2 ∧
    ((st.interrupt (E := Unit) bank (Except.ok intf) (Except.ok intcap)).1.interrupt
        (E := Unit) bank (Except.ok intf) (Except.ok intcap)).1
      = (st.interrupt (E := Unit) bank (Except.ok intf) (Except.ok intcap)).1 := by
  obtain ⟨⟨fa, fb⟩, ⟨ca, cb⟩⟩ := st
  simp only [WellFormed] at hWF
  obtain ⟨hfa, hfb, hca, hcb⟩ := hWF
  cases bank
  · have hadd := merge_add_eq_or ca intf intcap hintf
    have hlt : (ca &&& (255 ^^^ intf)) ||| (intcap &&& intf) < 256 :=
      merge_or_lt ca intcap intf hca hintcap
    refine ⟨rfl, ?_, rfl, ?_⟩
    · intro h
      simp only [flagOf] at h
      simp only [InterruptController.interrupt, flagOf, Nat.testBit_or, h, Bool.true_or]
    · simp only [InterruptController.interrupt]
      rw [hadd, Nat.mod_eq_of_lt hlt, reclear_mask ca intcap intf hintf,
        hadd, Nat.mod_eq_of_lt hlt, Nat.lor_assoc, Nat.or_self]
  · have hadd := merge_add_eq_or cb intf intcap hintf
    have hlt : (cb &&& (255 ^^^ intf)) ||| (intcap &&& intf) < 256 :=
      merge_or_lt cb intcap intf hcb hintcap
    refine ⟨rfl, ?_, rfl, ?_⟩
    · intro h
      simp only [flagOf] at h
      simp only [InterruptController.interrupt, flagOf, Nat.testBit_or, h, Bool.true_or]
    · simp only [InterruptController.interrupt]
      rw [hadd, Nat.mod_eq_of_lt hlt, reclear_mask cb intcap intf hintf,
        hadd, Nat.mod_eq_of_lt hlt, Nat.lor_assoc, Nat.or_self]

/-- Witness for C4 at the concrete input: fresh controller, bank A,
INTF byte 1, INTCAP byte 1, flag bit 0. -/
theorem claim_C4_witness :
    WellFormed InterruptController.new ∧ (1 : Nat) < 256 ∧
    flagOf (InterruptController.new.interrupt (E := Unit) Bank.A
        (Except.ok 1) (Except.ok 1)).1 Bank.A
      = flagOf InterruptController.new Bank.A ||| 1 :=
  ⟨by decide, by decide,
    (claim_C4_flag_additive InterruptController.new Bank.A 1 1 1 1 1 1 0
      (by decide) (by decide) (by decide)).1⟩

/-- C3: `triggered(pin)` always clears the pin's flag bit; if that bit
was set it clears the pin's capture bit and returns `some` of its prior
value, and if it was clear it returns `none` leaving the capture
bitmaps untouched.  Concretely: after servicing bank A with INTF = 1
and INTCAP = 1 on a fresh controller, `triggered(A0)` returns
`some true` and a second call returns `none`; on a fresh controller
`triggered` returns `none` for every pin. -/
theorem claim_C3_triggered (st : InterruptController) (p : PinId) :
    Nat.testBit (flagOf (st.triggered p).2 p.bank) p.number.val = false ∧
    (Nat.testBit (flagOf st p.bank) p.number.val = true →
      (st.triggered p).1 = some (Nat.testBit (captureOf st p.bank) p.number.val) ∧
      Nat.testBit (captureOf (st.triggered p).2 p.bank) p.number.val = false) ∧
    (Nat.testBit (flagOf st p.bank) p.number.val = false →
      (st.triggered p).1 = none ∧
      (st.triggered p).2.interrupt_capture = st.interrupt_capture) ∧
    (InterruptController.new.triggered p).1 = none ∧
    ((InterruptController.new.interrupt (E := Unit) Bank.A
        (Except.ok 1) (Except.ok 1)).1.triggered A0).1 = some true ∧
    (((InterruptController.new.interrupt (E := Unit) Bank.A
        (Except.ok 1) (Except.ok 1)).1.triggered A0).2.triggered A0).1 = none := by
  obtain ⟨⟨fa, fb⟩, ⟨ca, cb⟩⟩ := st
  obtain ⟨bank, num⟩ := p
  have hn : num.val < 8 := num.isLt
  cases bank
  · refine ⟨?_, ?_, ?_, by simp [InterruptController.triggered, InterruptController.new],
      by decide, by decide⟩
    · simp only [InterruptController.triggered, flagOf]
      split <;> exact clear_bit_self fa num.val hn
    · intro h
      simp only [flagOf, captureOf] at h ⊢
      simp only [InterruptController.triggered, and_pow_ne_zero_iff, h, if_true]
      exact ⟨trivial, clear_bit_self ca num.val hn⟩
    · intro h
      simp only [flagOf] at h
      simp [InterruptController.triggered, and_pow_ne_zero_iff, h]
  · refine ⟨?_, ?_, ?_, by simp [InterruptController.triggered, InterruptController.new],
      by decide, by decide⟩
    · simp only [InterruptController.triggered, flagOf]
      split <;> exact clear_bit_self fb num.val hn
    · intro h
      simp only [flagOf, captureOf] at h ⊢
      simp only [InterruptController.triggered, and_pow_ne_zero_iff, h, if_true]
      exact ⟨trivial, clear_bit_self cb num.val hn⟩
    · intro h
      simp only [flagOf] at h
      simp [InterruptController.triggered, and_pow_ne_zero_iff, h]

/-- Witness for C3 at the concrete serviced state and pin A0. -/
theorem claim_C3_witness :
    Nat.testBit (flagOf (InterruptController.new.interrupt (E := Unit) Bank.A
        (Except.ok 1) (Except.ok 1)).1 Bank.A) 0 = true ∧
    ((InterruptController.new.interrupt (E := Unit) Bank.A
        (Except.ok 1) (Except.ok 1)).1.triggered A0).1
      = some (Nat.testBit (captureOf (InterruptController.new.interrupt (E := Unit) Bank.A
          (Except.ok 1) (Except.ok 1)).1 Bank.A) 0) :=
  ⟨by decide, ((claim_C3_triggered _ A0).2.1 (by decide)).1⟩

theorem triggered_frame (st : InterruptController) (p : PinId) (bank : Bank) (k : Nat)
    (hk : k < 8) (hdiff : bank ≠ p.bank ∨ k ≠ p.number.val) :
    Nat.testBit (flagOf (st.triggered p).2 bank) k = Nat.testBit (flagOf st bank) k ∧
    Nat.testBit (captureOf (st.triggered p).2 bank) k = Nat.testBit (captureOf st bank) k := by
  obtain ⟨⟨fa, fb⟩, ⟨ca, cb⟩⟩ := st
  obtain ⟨pb, pn⟩ := p
  have hp8 : pn.val < 8 := pn.isLt
  cases pb <;> cases bank
  · have hkp : k ≠ pn.val := by
      rcases hdiff with h | h
      · exact absurd rfl h
      · exact h
    constructor
    · simp only [InterruptController.triggered, flagOf]
      split <;> exact clear_bit_preserve fa pn.val k hkp hp8 hk
    · simp only [InterruptController.triggered, captureOf]
      split
      · exact clear_bit_preserve ca pn.val k hkp hp8 hk
      · rfl
  · constructor <;>
      · simp only [InterruptController.triggered, flagOf, captureOf]
        split <;> rfl
  · constructor <;>
      · simp only [InterruptController.triggered, flagOf, captureOf]
        split <;> rfl
  · have hkp : k ≠ pn.val := by
      rcases hdiff with h | h
      · exact absurd rfl h
      · exact h
    constructor
    · simp only [InterruptController.triggered, flagOf]
      split <;> exact clear_bit_preserve fb pn.val k hkp hp8 hk
    · simp only [InterruptController.triggered, captureOf]
      split
      · exact clear_bit_preserve cb pn.val k hkp hp8 hk
      · rfl

theorem double_clear_comm (x i j : Nat) :
    (x &&& (255 ^^^ (1 <<< i))) &&& (255 ^^^ (1 <<< j))
      = (x &&& (255 ^^^ (1 <<< j))) &&& (255 ^^^ (1 <<< i)) := by
  rw [Nat.land_assoc, Nat.land_assoc, Nat.land_comm (255 ^^^ (1 <<< i))]

theorem triggered_comm (st : InterruptController) (p q : PinId) (hpq : p ≠ q) :
    ((st.triggered p).2.triggered q).2 = ((st.triggered q).2.triggered p).2 ∧
    ((st.triggered p).2.triggered q).1 = (st.triggered q).1 ∧
    ((st.triggered q).2.triggered p).1 = (st.triggered p).1 := by
  obtain ⟨⟨fa, fb⟩, ⟨ca, cb⟩⟩ := st
  obtain ⟨pb, pn⟩ := p
  obtain ⟨qb, qn⟩ := q
  have hp8 : pn.val < 8 := pn.isLt
  have hq8 : qn.val < 8 := qn.isLt
  cases pb <;> cases qb
  · have hne : pn.val ≠ qn.val := fun h =>
      hpq (congrArg (PinId.mk Bank.A) (Fin.ext h))
    have F1 : (fa &&& (255 ^^^ (1 <<< pn.val))) &&& (1 <<< qn.val) = fa &&& (1 <<< qn.val) :=
      and_not_pow_and_pow fa pn.val qn.val hne hp8 hq8
    have F2 : (ca &&& (255 ^^^ (1 <<< pn.val))) &&& (1 <<< qn.val) = ca &&& (1 <<< qn.val) :=
      and_not_pow_and_pow ca pn.val qn.val hne hp8 hq8
    have F3 : (fa &&& (255 ^^^ (1 <<< qn.val))) &&& (1 <<< pn.val) = fa &&& (1 <<< pn.val) :=
      and_not_pow_and_pow fa qn.val pn.val (Ne.symm hne) hq8 hp8
    have F4 : (ca &&& (255 ^^^ (1 <<< qn.val))) &&& (1 <<< pn.val) = ca &&& (1 <<< pn.val) :=
      and_not_pow_and_pow ca qn.val pn.val (Ne.symm hne) hq8 hp8
    have F5 := double_clear_comm fa pn.val qn.val
    have F6 := double_clear_comm ca pn.val qn.val
    rcases hP : (fa &&& (1 <<< pn.val) != 0) <;>
      rcases hQ : (fa &&& (1 <<< qn.val) != 0) <;>
        simp [InterruptController.triggered, hP, hQ, F1, F2, F3, F4, F5, F6]
  · rcases hP : (fa &&& (1 <<< pn.val) != 0) <;>
      rcases hQ : (fb &&& (1 <<< qn.val) != 0) <;>
        simp [InterruptController.triggered, hP, hQ]
  · rcases hP : (fb &&& (1 <<< pn.val) != 0) <;>
      rcases hQ : (fa &&& (1 <<< qn.val) != 0) <;>
        simp [InterruptController.triggered, hP, hQ]
  · have hne : pn.val ≠ qn.val := fun h =>
      hpq (congrArg (PinId.mk Bank.B) (Fin.ext h))
    have F1 : (fb &&& (255 ^^^ (1 <<< pn.val))) &&& (1 <<< qn.val) = fb &&& (1 <<< qn.val) :=
      and_not_pow_and_pow fb pn.val qn.val hne hp8 hq8
    have F2 : (cb &&& (255 ^^^ (1 <<< pn.val))) &&& (1 <<< qn.val) = cb &&& (1 <<< qn.val) :=
      and_not_pow_and_pow cb pn.val qn.val hne hp8 hq8
    have F3 : (fb &&& (255 ^^^ (1 <<< qn.val))) &&& (1 <<< pn.val) = fb &&& (1 <<< pn.val) :=
      and_not_pow_and_pow fb qn.val pn.val (Ne.symm hne) hq8 hp8
    have F4 : (cb &&& (255 ^^^ (1 <<< qn.val))) &&& (1 <<< pn.val) = cb &&& (1 <<< pn.val) :=
      and_not_pow_and_pow cb qn.val pn.val (Ne.symm hne) hq8 hp8
    have F5 := double_clear_comm fb pn.val qn.val
    have F6 := double_clear_comm cb pn.val qn.val
    rcases hP : (fb &&& (1 <<< pn.val) != 0) <;>
      rcases hQ : (fb &&& (1 <<< qn.val) != 0) <;>
        simp [InterruptController.triggered, hP, hQ, F1, F2, F3, F4, F5, F6]

/-- C8: `triggered(pin)` modifies at most the pin's own bit — every
other bit of the flag and capture bitmaps, in both banks, is left
unchanged — and `triggered` calls for two distinct pin identities
commute: the final controller state is the same in either order and
each pin's returned answer is unaffected by the other pin's call. -/
theorem claim_C8_triggered_independent (st : InterruptController) (p q : PinId)
    (bank : Bank) (k : Nat) (hk : k < 8) (hdiff : bank ≠ p.bank ∨ k ≠ p.number.val)
    (hpq : p ≠ q) :
    Nat.testBit (flagOf (st.triggered p).2 bank) k = Nat.testBit (flagOf st bank) k ∧
    Nat.testBit (captureOf (st.triggered p).2 bank) k = Nat.testBit (captureOf st bank) k ∧
    ((st.triggered p).2.triggered q).2 = ((st.triggered q).2.triggered p).2 ∧
    ((st.triggered p).2.triggered q).1 = (st.triggered q).1 ∧
    ((st.triggered q).2.triggered p).1 = (st.triggered p).1 := by
  obtain ⟨h1, h2⟩ := triggered_frame st p bank k hk hdiff
  obtain ⟨h3, h4, h5⟩ := triggered_comm st p q hpq
  exact ⟨h1, h2, h3, h4, h5⟩

/-- Witness for C8 at concrete distinct pins A0 and A1 on a freshly
constructed controller. -/
theorem claim_C8_witness :
    (0 : Nat) < 8 ∧ (Bank.B ≠ A0.bank ∨ (0 : Nat) ≠ A0.number.val) ∧ A0 ≠ A1 ∧
    ((InterruptController.new.triggered A0).2.triggered A1).1
      = (InterruptController.new.triggered A1).1 :=
  ⟨by decide, by decide, by decide,
    (claim_C8_triggered_independent InterruptController.new A0 A1 Bank.B 0
      (by decide) (by decide) (by decide)).2.2.2.1⟩

theorem testBit_mod256 (x j : Nat) (hj : j < 8) : (x % 256).testBit j = x.testBit j := by
  have h : (256 : Nat) = 2 ^ 8 := by norm_num
  rw [h, Nat.testBit_mod_two_pow]
  simp [hj]

theorem set_bit_self (x n : Nat) : (x ||| (1 <<< n)).testBit n = true := by
  rw [Nat.one_shiftLeft]
  simp [Nat.testBit_or, Nat.testBit_two_pow_self]

theorem set_bit_preserve (x n k : Nat) (hkn : k ≠ n) :
    (x ||| (1 <<< n)).testBit k = x.testBit k := by
  rw [Nat.one_shiftLeft]
  simp [Nat.testBit_or, Nat.testBit_two_pow_of_ne (fun h => hkn h.symm)]

theorem clear_bit_self' (x i : Nat) (hi : i < 8) :
    (x &&& ((1 <<< i) ^^^ 255)).testBit i = false := by
  rw [Nat.xor_comm]
  exact clear_bit_self x i hi

theorem clear_bit_preserve' (x i k : Nat) (hik : k ≠ i) (hi : i < 8) (hk : k < 8) :
    (x &&& ((1 <<< i) ^^^ 255)).testBit k = x.testBit k := by
  rw [Nat.xor_comm]
  exact clear_bit_preserve x i k hik hi hk

/-- C5: against a bus that echoes the last byte written to each
address, `set(register, b)` succeeds, writes back the byte it read with
only the pin's bit forced to `b` (all other bits of that byte and all
other addresses preserved), a subsequent `get(register)` returns `b`,
and `get(register)` returns true iff the pin's bit of the last byte
written at the bank-shifted register address is 1. -/
theorem claim_C5_set_get (p : PinId) (reg : Nat) (bit : Bool) (b : Bus)
    (hb : b.failures = []) :
    (Registers.set p reg bit b).2 = Except.ok () ∧
    (∀ j, j < 8 → j ≠ p.number.val →
      Nat.testBit ((Registers.set p reg bit b).1.mem (Registers.address p reg)) j
        = Nat.testBit (b.mem (Registers.address p reg)) j) ∧
    Nat.testBit ((Registers.set p reg bit b).1.mem (Registers.address p reg)) p.number.val
      = bit ∧
    (∀ a, a ≠ Registers.address p reg → (Registers.set p reg bit b).1.mem a = b.mem a) ∧
    (Registers.get p reg (Registers.set p reg bit b).1).2 = Except.ok bit ∧
    (Registers.get p reg b).2
      = Except.ok (Nat.testBit (b.mem (Registers.address p reg)) p.number.val) := by
  obtain ⟨mem, fails, log⟩ := b
  simp only at hb
  subst hb
  have hn8 : p.number.val < 8 := p.number.isLt
  refine ⟨?_, ?_, ?_, ?_, ?_, ?_⟩
  · cases bit <;> simp [Registers.set, Bus.write_read, Bus.write, Bus.step]
  · intro j hj8 hjn
    cases bit <;>
      simp [Registers.set, Bus.write_read, Bus.write, Bus.step,
        set_bit_preserve _ _ j hjn, clear_bit_preserve' _ _ j hjn hn8 hj8,
        testBit_mod256 _ j hj8]
  · cases bit <;>
      simp [Registers.set, Bus.write_read, Bus.write, Bus.step,
        set_bit_self, clear_bit_self' _ _ hn8]
  · intro a ha
    cases bit <;>
      simp [Registers.set, Bus.write_read, Bus.write, Bus.step, ha]
  · cases bit <;>
      simp [Registers.set, Registers.get, Bus.write_read, Bus.write, Bus.step,
        and_pow_ne_zero_iff, testBit_mod256 _ _ hn8, set_bit_self, clear_bit_self' _ _ hn8]
  · simp [Registers.get, Bus.write_read, Bus.step, and_pow_ne_zero_iff,
      testBit_mod256 _ _ hn8]

/-- Witness for C5 at pin A0, the GPIO register, bit true, on an
all-zero echo bus. -/
theorem claim_C5_witness :
    (Bus.mk (fun _ => 0) [] []).failures = [] ∧
    (Registers.get Mcp23017.A0 Registers.GPIO
        (Registers.set Mcp23017.A0 Registers.GPIO true (Bus.mk (fun _ => 0) [] [])).1).2
      = Except.ok true :=
  ⟨rfl,
    (claim_C5_set_get Mcp23017.A0 Registers.GPIO true (Bus.mk (fun _ => 0) [] [])
      rfl).2.2.2.2.1⟩

/-- C6: for a pin in Input configuration, `enable_interrupt` performs
exactly the register bit-writes INTCON=1, DEFVAL=0, GPINTEN=1 in order
for sense High; INTCON=1, DEFVAL=1, GPINTEN=1 for sense Low; INTCON=0,
GPINTEN=1 for sense Edge; and `disable_interrupt` performs exactly one
bit-write, GPINTEN=0.  Both transitions preserve the input
configuration parameter `C` in the returned handle's mode. -/
theorem claim_C6_interrupt_transitions (p : PinId) (c : InputConfiguration) (b : Bus)
    (hb : b.failures = []) :
    (∃ x1 x2 x3,
      (enable_interrupt p c Sense.High b).2 = Except.ok (PinMode.Interrupt c) ∧
      (enable_interrupt p c Sense.High b).1.log
        = b.log ++ [(Registers.address p Registers.INTCON, x1),
            (Registers.address p Registers.DEFVAL, x2),
            (Registers.address p Registers.GPINTEN, x3)] ∧
      x1.testBit p.number.val = true ∧ x2.testBit p.number.val = false ∧
      x3.testBit p.number.val = true) ∧
    (∃ x1 x2 x3,
      (enable_interrupt p c Sense.Low b).2 = Except.ok (PinMode.Interrupt c) ∧
      (enable_interrupt p c Sense.Low b).1.log
        = b.log ++ [(Registers.address p Registers.INTCON, x1),
            (Registers.address p Registers.DEFVAL, x2),
            (Registers.address p Registers.GPINTEN, x3)] ∧
      x1.testBit p.number.val = true ∧ x2.testBit p.number.val = true ∧
      x3.testBit p.number.val = true) ∧
    (∃ x1 x2,
      (enable_interrupt p c Sense.Edge b).2 = Except.ok (PinMode.Interrupt c) ∧
      (enable_interrupt p c Sense.Edge b).1.log
        = b.log ++ [(Registers.address p Registers.INTCON, x1),
            (Registers.address p Registers.GPINTEN, x2)] ∧
      x1.testBit p.number.val = false ∧ x2.testBit p.number.val = true) ∧
    (∃ x1,
      (disable_interrupt p c b).2 = Except.ok (PinMode.Input c) ∧
      (disable_interrupt p c b).1.log
        = b.log ++ [(Registers.address p Registers.GPINTEN, x1)] ∧
      x1.testBit p.number.val = false) := by
  obtain ⟨mem, fails, log⟩ := b
  simp only at hb
  subst hb
  have hn8 : p.number.val < 8 := p.number.isLt
  have h21 : Registers.address p Registers.DEFVAL ≠ Registers.address p Registers.INTCON := by
    obtain ⟨pb, pn⟩ := p
    cases pb <;> simp [Registers.address, Registers.DEFVAL, Registers.INTCON]
  have h31 : Registers.address p Registers.GPINTEN ≠ Registers.address p Registers.INTCON := by
    obtain ⟨pb, pn⟩ := p
    cases pb <;> simp [Registers.address, Registers.GPINTEN, Registers.INTCON]
  have h32 : Registers.address p Registers.GPINTEN ≠ Registers.address p Registers.DEFVAL := by
    obtain ⟨pb, pn⟩ := p
    cases pb <;> simp [Registers.address, Registers.GPINTEN, Registers.DEFVAL]
  refine ⟨?_, ?_, ?_, ?_⟩
  · refine ⟨(mem (Registers.address p Registers.INTCON) % 256) ||| (1 <<< p.number.val),
      (mem (Registers.address p Registers.DEFVAL) % 256) &&& ((1 <<< p.number.val) ^^^ 255),
      (mem (Registers.address p Registers.GPINTEN) % 256) ||| (1 <<< p.number.val),
      ?_, ?_, set_bit_self _ _, clear_bit_self' _ _ hn8, set_bit_self _ _⟩ <;>
      simp [enable_interrupt, bindSet, Registers.set, Bus.write_read, Bus.write, Bus.step,
        h21, h31, h32, List.append_assoc]
  · refine ⟨(mem (Registers.address p Registers.INTCON) % 256) ||| (1 <<< p.number.val),
      (mem (Registers.address p Registers.DEFVAL) % 256) ||| (1 <<< p.number.val),
      (mem (Registers.address p Registers.GPINTEN) % 256) ||| (1 <<< p.number.val),
      ?_, ?_, set_bit_self _ _, set_bit_self _ _, set_bit_self _ _⟩ <;>
      simp [enable_interrupt, bindSet, Registers.set, Bus.write_read, Bus.write, Bus.step,
        h21, h31, h32, List.append_assoc]
  · refine ⟨(mem (Registers.address p Registers.INTCON) % 256) &&& ((1 <<< p.number.val) ^^^ 255),
      (mem (Registers.address p Registers.GPINTEN) % 256) ||| (1 <<< p.number.val),
      ?_, ?_, clear_bit_self' _ _ hn8, set_bit_self _ _⟩ <;>
      simp [enable_interrupt, bindSet, Registers.set, Bus.write_read, Bus.write, Bus.step,
        h31, List.append_assoc]
  · refine ⟨(mem (Registers.address p Registers.GPINTEN) % 256) &&& ((1 <<< p.number.val) ^^^ 255),
      ?_, ?_, clear_bit_self' _ _ hn8⟩ <;>
      simp [disable_interrupt, bindSet, Registers.set, Bus.write_read, Bus.write, Bus.step]

/-- Witness for C6 at pin A0, floating configuration, sense High, on an
all-zero echo bus. -/
theorem claim_C6_witness :
    (Bus.mk (fun _ => 0) [] []).failures = [] ∧
    (enable_interrupt A0 InputConfiguration.Floating Sense.High (Bus.mk (fun _ => 0) [] [])).2
      = Except.ok (PinMode.Interrupt InputConfiguration.Floating) :=
  ⟨rfl, by
    obtain ⟨x1, x2, x3, h, _⟩ :=
      (claim_C6_interrupt_transitions A0 InputConfiguration.Floating
        (Bus.mk (fun _ => 0) [] []) rfl).1
    exact h⟩

theorem bindSet_error (r : Bus × Except Unit Unit) (k : Bus → Bus × Except Unit PinMode)
    (e : Unit) (h : r.2 = Except.error e) : (bindSet r k).2 = Except.error e := by
  obtain ⟨bb, x⟩ := r
  simp only at h
  subst h
  rfl

theorem bindSet_ok (r : Bus × Except Unit Unit) (k : Bus → Bus × Except Unit PinMode)
    (b1 : Bus) (h : r = (b1, Except.ok ())) : bindSet r k = k b1 := by
  subst h
  rfl

/-- C7: if any single register write in a mode transition fails with
a bus error, the operation surfaces the error and produces no new-mode
handle — stated for every transition operation and every write position
in its sequence — and in particular a failure on the second write of
the Output-to-Input(Floating) transition (GPPU=0 then IODIR=1) yields
an error while the already-performed GPPU write is not rolled back. -/
theorem claim_C7_write_failure (p : PinId) (c : InputConfiguration) (b b1 b2 : Bus)
    (e : Unit) (mem : Nat → Nat) (_hp : InputPinId p) :
    ((Registers.set p Registers.GPPU false b).2 = Except.error e →
      (into_floating_input_of_pull_up p b).2 = Except.error e) ∧
    ((Registers.set p Registers.GPPU true b).2 = Except.error e →
      (into_pull_up_input_of_floating p b).2 = Except.error e) ∧
    ((Registers.set p Registers.IODIR false b).2 = Except.error e →
      (into_push_pull_output p c b).2 = Except.error e) ∧
    ((Registers.set p Registers.GPINTEN false b).2 = Except.error e →
      (disable_interrupt p c b).2 = Except.error e) ∧
    ((Registers.set p Registers.GPPU false b).2 = Except.error e →
      (into_floating_input_of_output p b).2 = Except.error e) ∧
    (Registers.set p Registers.GPPU false b = (b1, Except.ok ()) →
      (Registers.set p Registers.IODIR true b1).2 = Except.error e →
      (into_floating_input_of_output p b).2 = Except.error e) ∧
    ((Registers.set p Registers.GPPU true b).2 = Except.error e →
      (into_pull_up_input_of_output p b).2 = Except.error e) ∧
    (Registers.set p Registers.GPPU true b = (b1, Except.ok ()) →
      (Registers.set p Registers.IODIR true b1).2 = Except.error e →
      (into_pull_up_input_of_output p b).2 = Except.error e) ∧
    ((Registers.set p Registers.INTCON true b).2 = Except.error e →
      (enable_interrupt p c Sense.High b).2 = Except.error e ∧
      (enable_interrupt p c Sense.Low b).2 = Except.error e) ∧
    ((Registers.set p Registers.INTCON false b).2 = Except.error e →
      (enable_interrupt p c Sense.Edge b).2 = Except.error e) ∧
    (Registers.set p Registers.INTCON true b = (b1, Except.ok ()) →
      ((Registers.set p Registers.DEFVAL false b1).2 = Except.error e →
        (enable_interrupt p c Sense.High b).2 = Except.error e) ∧
      ((Registers.set p Registers.DEFVAL true b1).2 = Except.error e →
        (enable_interrupt p c Sense.Low b).2 = Except.error e) ∧
      (Registers.set p Registers.DEFVAL false b1 = (b2, Except.ok ()) →
        (Registers.set p Registers.GPINTEN true b2).2 = Except.error e →
        (enable_interrupt p c Sense.High b).2 = Except.error e) ∧
      (Registers.set p Registers.DEFVAL true b1 = (b2, Except.ok ()) →
        (Registers.set p Registers.GPINTEN true b2).2 = Except.error e →
        (enable_interrupt p c Sense.Low b).2 = Except.error e)) ∧
    (Registers.set p Registers.INTCON false b = (b1, Except.ok ()) →
      (Registers.set p Registers.GPINTEN true b1).2 = Except.error e →
      (enable_interrupt p c Sense.Edge b).2 = Except.error e) ∧
    (into_floating_input_of_output p (Bus.mk mem [false, false, false, true] [])).2
      = Except.error () ∧
    (into_floating_input_of_output p (Bus.mk mem [false, false, false, true] [])).1.mem
        (Registers.address p Registers.GPPU)
      = (mem (Registers.address p Registers.GPPU) % 256)
          &&& ((1 <<< p.number.val) ^^^ 255) := by
  refine ⟨fun h => bindSet_error _ _ _ h,
    fun h => bindSet_error _ _ _ h,
    fun h => bindSet_error _ _ _ h,
    fun h => bindSet_error _ _ _ h,
    fun h => bindSet_error _ _ _ h,
    fun h1 h2 => ?_,
    fun h => bindSet_error _ _ _ h,
    fun h1 h2 => ?_,
    fun h => ⟨bindSet_error _ _ _ h, bindSet_error _ _ _ h⟩,
    fun h => bindSet_error _ _ _ h,
    fun h1 => ⟨fun h2 => ?_, fun h2 => ?_, fun h2 h3 => ?_, fun h2 h3 => ?_⟩,
    fun h1 h2 => ?_, ?_, ?_⟩
  · rw [into_floating_input_of_output, bindSet_ok _ _ _ h1]
    exact bindSet_error _ _ _ h2
  · rw [into_pull_up_input_of_output, bindSet_ok _ _ _ h1]
    exact bindSet_error _ _ _ h2
  · show (enable_interrupt p c Sense.High b).2 = Except.error e
    simp only [enable_interrupt]
    rw [bindSet_ok _ _ _ h1]
    exact bindSet_error _ _ _ h2
  · show (enable_interrupt p c Sense.Low b).2 = Except.error e
    simp only [enable_interrupt]
    rw [bindSet_ok _ _ _ h1]
    exact bindSet_error _ _ _ h2
  · show (enable_interrupt p c Sense.High b).2 = Except.error e
    simp only [enable_interrupt]
    rw [bindSet_ok _ _ _ h1, bindSet_ok _ _ _ h2]
    exact bindSet_error _ _ _ h3
  · show (enable_interrupt p c Sense.Low b).2 = Except.error e
    simp only [enable_interrupt]
    rw [bindSet_ok _ _ _ h1, bindSet_ok _ _ _ h2]
    exact bindSet_error _ _ _ h3
  · show (enable_interrupt p c Sense.Edge b).2 = Except.error e
    simp only [enable_interrupt]
    rw [bindSet_ok _ _ _ h1]
    exact bindSet_error _ _ _ h2
  · simp [into_floating_input_of_output, bindSet, Registers.set,
      Bus.write_read, Bus.write, Bus.step]
  · simp [into_floating_input_of_output, bindSet, Registers.set,
      Bus.write_read, Bus.write, Bus.step]

/-- Witness for C7: the GPPU write of `into_floating_input` (from
pull-up) fails immediately on a bus whose first transaction fails. -/
theorem claim_C7_witness :
    InputPinId A0 ∧
    (Registers.set A0 Registers.GPPU false (Bus.mk (fun _ => 0) [true] [])).2
      = Except.error () ∧
    (into_floating_input_of_pull_up A0 (Bus.mk (fun _ => 0) [true] [])).2
      = Except.error () :=
  ⟨by decide, rfl,
    (claim_C7_write_failure A0 InputConfiguration.Floating
      (Bus.mk (fun _ => 0) [true] []) (Bus.mk (fun _ => 0) [] [])
      (Bus.mk (fun _ => 0) [] []) () (fun _ => 0) (by decide)).1 rfl⟩

end Mcp23017
